import Mathlib

/-!
Verification of the jazz log service's query-construction layer.

The development shallowly embeds the Go sources of the repository:
Go strings become `List Char` (byte lengths are computed with
`Char.utf8Size`, matching Go's `len` on UTF-8 strings), the SQL
query builder becomes a record of accumulated condition strings and
argument values, and the HTTP handlers become pure functions from
their parsed inputs to a status code and a store state.
-/

/-- Go strings are modelled as lists of characters. -/
abbrev GoStr := List Char

/-- Injects a Lean string literal into the `GoStr` model. -/
def gs (s : String) : GoStr := s.toList

/-- The double-quote character (U+0022). -/
def dquoteChar : Char := Char.ofNat 34

/-- The single-quote character (U+0027). -/
def aposChar : Char := Char.ofNat 39

/-- Byte length of a string, as Go's `len` computes it on UTF-8 data. -/
def utf8Len (s : GoStr) : Nat := (s.map Char.utf8Size).sum

/-- Models Go's `unicode.IsSpace`: ASCII whitespace, U+0085, U+00A0 and the
Unicode space-separator code points. -/
def goIsSpace (c : Char) : Bool :=
  c = ' ' || c = Char.ofNat 9 || c = Char.ofNat 10 || c = Char.ofNat 11 ||
  c = Char.ofNat 12 || c = Char.ofNat 13 || c = Char.ofNat 0x85 || c = Char.ofNat 0xA0 ||
  c = Char.ofNat 0x1680 || (0x2000 ≤ c.toNat && c.toNat ≤ 0x200A) ||
  c = Char.ofNat 0x2028 || c = Char.ofNat 0x2029 || c = Char.ofNat 0x202F ||
  c = Char.ofNat 0x205F || c = Char.ofNat 0x3000

/-- Models Go's `strings.TrimSpace`: drop leading and trailing whitespace. -/
def trimSpace (s : GoStr) : GoStr :=
  ((s.dropWhile goIsSpace).reverse.dropWhile goIsSpace).reverse

/-- Worker for `fields`; `cur` holds the current in-progress field reversed. -/
def fieldsGo : GoStr → GoStr → List GoStr
  | [], cur => if cur = [] then [] else [cur.reverse]
  | c :: rest, cur =>
    if goIsSpace c then
      if cur = [] then fieldsGo rest [] else cur.reverse :: fieldsGo rest []
    else fieldsGo rest (c :: cur)

/-- Models Go's `strings.Fields`: split around runs of whitespace. -/
def fields (s : GoStr) : List GoStr := fieldsGo s []

/-- Models Go's `unicode.ToLower` restricted to the ASCII range used by this
service's inputs; code points outside `A`-`Z` are returned unchanged. -/
def goToLower (c : Char) : Char :=
  if 'A' ≤ c && c ≤ 'Z' then Char.ofNat (c.toNat + 32) else c

/-- Models Go's `strings.ToLower` on the ASCII range. -/
def toLowerStr (s : GoStr) : GoStr := s.map goToLower

/-- Models `strings.ReplaceAll s (string c) ""` for a single character. -/
def removeChar (c : Char) (s : GoStr) : GoStr := s.filter (fun x => x ≠ c)

/-- `SearchQueryParser.sanitize` from `database/search.go`: removes double
quotes, single quotes and both parentheses.  The Go code iterates a map of
single-character replacements; the removals commute, so the iteration order
(unspecified in Go) does not affect the result. -/
def sanitize (q : GoStr) : GoStr :=
  removeChar ')' (removeChar '(' (removeChar aposChar (removeChar dquoteChar q)))

/-- The distinct validation failures of `SearchQueryParser.Parse`.  Each
constructor corresponds to one `fmt.Errorf` message in `database/search.go`:
`tooShort` = "search query must be at least %d characters", `tooLong` =
"search query too long", `emptyQuery` = "search query is empty",
`noValidTerms` = "no valid search terms". -/
inductive ParseErr where
  | tooShort
  | tooLong
  | emptyQuery
  | noValidTerms
deriving DecidableEq

/-- `NewSearchQueryParser` default minimum length. -/
def parserMinLength : Nat := 3

/-- `NewSearchQueryParser` default maximum length. -/
def parserMaxLength : Nat := 1000

/-- `SearchQueryParser.filterValidWords`: keep words of byte length at least 2,
lowercased, in order (the Go loop appends to an initially empty slice). -/
def filterValidWords (words : List GoStr) : List GoStr :=
  words.foldl (fun valid word => if 2 ≤ utf8Len word then valid ++ [toLowerStr word] else valid) []

/-- Models Go's `strings.Join`. -/
def joinWith (sep : GoStr) : List GoStr → GoStr
  | [] => []
  | [x] => x
  | x :: y :: xs => x ++ sep ++ joinWith sep (y :: xs)

/-- `SearchQueryParser.Parse` from `database/search.go` (the successive Go
reassignments of `query` are inlined). -/
def SearchQueryParser.Parse (query : GoStr) : Except ParseErr GoStr :=
  if utf8Len (trimSpace query) < parserMinLength then .error .tooShort
  else if utf8Len (trimSpace query) > parserMaxLength then .error .tooLong
  else if (fields (sanitize (trimSpace query))).length = 0 then .error .emptyQuery
  else if (filterValidWords (fields (sanitize (trimSpace query)))).length = 0 then
    .error .noValidTerms
  else .ok (joinWith (gs " & ") (filterValidWords (fields (sanitize (trimSpace query)))))

/-- Spec step 4: keep characters other than double quote, single quote and the
two parentheses. -/
def specStrip (c : Char) : Bool :=
  !(c = dquoteChar || c = aposChar || c = '(' || c = ')')

/-- Spec step 7: discard terms whose length is shorter than 2. -/
def specKeepTerm (w : GoStr) : Bool := !(decide (utf8Len w < 2))

/-- Modelled from the spec's step contract for `Parse` (section 4.2, steps
1-9), used as the refinement target for claim C1: trim, length bounds 3/1000,
strip punctuation, split on whitespace, discard short terms, lowercase, join
with " & ".  Lengths are byte lengths, as in the code the spec describes. -/
def specContractParse (raw : GoStr) : Except ParseErr GoStr :=
  if utf8Len (trimSpace raw) < 3 then .error .tooShort
  else if utf8Len (trimSpace raw) > 1000 then .error .tooLong
  else if (fields ((trimSpace raw).filter specStrip)).length = 0 then .error .emptyQuery
  else if (((fields ((trimSpace raw).filter specStrip)).filter specKeepTerm).map toLowerStr).length = 0 then
    .error .noValidTerms
  else
    .ok (joinWith (gs " & ")
      (((fields ((trimSpace raw).filter specStrip)).filter specKeepTerm).map toLowerStr))

theorem sanitize_eq_filter (q : GoStr) : sanitize q = q.filter specStrip := by
  unfold sanitize removeChar
  rw [List.filter_filter, List.filter_filter, List.filter_filter]
  refine List.filter_congr ?_
  intro c _
  by_cases h1 : c = dquoteChar <;> by_cases h2 : c = aposChar <;>
    by_cases h3 : c = '(' <;> by_cases h4 : c = ')' <;>
    simp [specStrip, h1, h2, h3, h4]

theorem filterValidWords_foldl (ws : List GoStr) (acc : List GoStr) :
    ws.foldl (fun valid word => if 2 ≤ utf8Len word then valid ++ [toLowerStr word] else valid) acc
      = acc ++ (ws.filter specKeepTerm).map toLowerStr := by
  induction ws generalizing acc with
  | nil => simp
  | cons w tl ih =>
    by_cases h : 2 ≤ utf8Len w
    · have hk : specKeepTerm w = true := by
        simp [specKeepTerm, Nat.not_lt.mpr h]
      simp [List.foldl_cons, h, ih, hk, List.append_assoc]
    · have hk : specKeepTerm w = false := by
        simp [specKeepTerm, Nat.lt_of_not_le h]
      simp [List.foldl_cons, h, ih, hk]

theorem filterValidWords_eq (ws : List GoStr) :
    filterValidWords ws = (ws.filter specKeepTerm).map toLowerStr := by
  unfold filterValidWords
  rw [filterValidWords_foldl]
  simp

theorem parse_eq_specContract (q : GoStr) :
    SearchQueryParser.Parse q = specContractParse q := by
  unfold SearchQueryParser.Parse specContractParse
  rw [sanitize_eq_filter, filterValidWords_eq, parserMinLength, parserMaxLength]

/-- C1: `SearchQueryParser.Parse` follows the spec's step contract (trim;
length bounds 3 and 1000 with too-short/too-long failures; strip quotes and
parentheses; split on whitespace with an empty-query failure; discard terms
shorter than 2, lowercase the rest, with a no-valid-terms failure; join with
" & "), and in particular the five concrete examples listed by the spec. -/
theorem claim_C1 :
    (∀ q : GoStr, SearchQueryParser.Parse q = specContractParse q)
    ∧ SearchQueryParser.Parse (gs "hello world") = .ok (gs "hello & world")
    ∧ SearchQueryParser.Parse (gs "Database ERROR Timeout") = .ok (gs "database & error & timeout")
    ∧ SearchQueryParser.Parse (gs "ab") = .error .tooShort
    ∧ SearchQueryParser.Parse (gs "a b c") = .error .noValidTerms
    ∧ SearchQueryParser.Parse (gs "a database b error") = .ok (gs "database & error") :=
  ⟨parse_eq_specContract, rfl, rfl, rfl, rfl, rfl⟩

/-! ### Decimal rendering of placeholder numbers (`fmt.Sprintf` with `%d`) -/

/-- The decimal digit character for `d < 10` (any larger input is clamped). -/
def digitChar (d : Nat) : Char :=
  match d with
  | 0 => '0' | 1 => '1' | 2 => '2' | 3 => '3' | 4 => '4'
  | 5 => '5' | 6 => '6' | 7 => '7' | 8 => '8' | _ => '9'

/-- Fuel-driven most-significant-first decimal digits of `n`; `fuel > n`
always suffices. -/
def decDigitsAux : Nat → Nat → List Char
  | 0, _ => []
  | fuel + 1, n =>
    if n < 10 then [digitChar n] else decDigitsAux fuel (n / 10) ++ [digitChar (n % 10)]

/-- Decimal rendering of a natural number, as Go's `fmt.Sprintf("%d", n)`. -/
def decRepr (n : Nat) : GoStr := decDigitsAux (n + 1) n

/-- Reads a digit string back as a number (most significant digit first). -/
def natOfDigits (ds : GoStr) : Nat := ds.foldl (fun acc c => 10 * acc + (c.toNat - 48)) 0

/-! ### Wall-clock timestamps and RFC3339 parsing (`time.Parse(time.RFC3339, s)`) -/

/-- Models Go's `time.Time` as the parsed calendar components: date, time of
day, nanoseconds, and the numeric zone offset in minutes. -/
structure GoTime where
  year : Nat
  month : Nat
  day : Nat
  hour : Nat
  minute : Nat
  second : Nat
  nanos : Nat
  offsetMinutes : Int
deriving DecidableEq

/-- Go's zero `time.Time`: January 1, year 1, 00:00:00 UTC. -/
def zeroGoTime : GoTime := ⟨1, 1, 1, 0, 0, 0, 0, 0⟩

/-- The numeric value of an ASCII digit, or `none`. -/
def digitVal (c : Char) : Option Nat :=
  if c.isDigit then some (c.toNat - 48) else none

/-- Two-digit field of a timestamp. -/
def twoDigits (a b : Char) : Option Nat :=
  match digitVal a, digitVal b with
  | some x, some y => some (10 * x + y)
  | _, _ => none

/-- Gregorian leap-year rule, as Go's `time` package applies it. -/
def isLeapYear (y : Nat) : Bool :=
  y % 4 == 0 && (y % 100 != 0 || y % 400 == 0)

/-- Days in a month, as Go's `time` package validates the day field. -/
def daysInMonth (y m : Nat) : Nat :=
  if m = 2 then (if isLeapYear y then 29 else 28)
  else if m = 4 || m = 6 || m = 9 || m = 11 then 30
  else 31

/-- Nanoseconds denoted by a fractional-second digit run (up to nanosecond
precision; further digits are ignored). -/
def nanosOfFrac (ds : GoStr) : Nat :=
  natOfDigits (ds.take 9) * 10 ^ (9 - (ds.take 9).length)

/-- Parses the timezone suffix of an RFC3339 timestamp: `Z` or `±HH:MM`,
which must end the string.  Returns the offset in minutes. -/
def parseZone : GoStr → Option Int
  | ['Z'] => some 0
  | '+' :: h1 :: h2 :: ':' :: m1 :: m2 :: [] =>
    match twoDigits h1 h2, twoDigits m1 m2 with
    | some hh, some mm => if hh ≤ 23 && mm ≤ 59 then some (hh * 60 + mm) else none
    | _, _ => none
  | '-' :: h1 :: h2 :: ':' :: m1 :: m2 :: [] =>
    match twoDigits h1 h2, twoDigits m1 m2 with
    | some hh, some mm => if hh ≤ 23 && mm ≤ 59 then some (-(hh * 60 + mm : Int)) else none
    | _, _ => none
  | _ => none

/-- Parses the optional fractional seconds (a `.` or `,` followed by at least
one digit) and the mandatory timezone suffix. -/
def parseFracZone (s : GoStr) : Option (Nat × Int) :=
  match s with
  | [] => none
  | c :: rest =>
    if c = '.' || c = ',' then
      let ds := rest.takeWhile Char.isDigit
      if ds = [] then none
      else (parseZone (rest.dropWhile Char.isDigit)).map (fun off => (nanosOfFrac ds, off))
    else (parseZone s).map (fun off => ((0 : Nat), off))

/-- Models `parseRFC3339` from the query builder, i.e. Go's
`time.Parse(time.RFC3339, s)`: `YYYY-MM-DDTHH:MM:SS` with optional fractional
seconds and a `Z` or `±HH:MM` zone, with the field range checks Go performs. -/
def parseRFC3339 (s : GoStr) : Option GoTime :=
  match s with
  | y1 :: y2 :: y3 :: y4 :: '-' :: mo1 :: mo2 :: '-' :: d1 :: d2 :: 'T' ::
      h1 :: h2 :: ':' :: mi1 :: mi2 :: ':' :: s1 :: s2 :: rest =>
    match digitVal y1, digitVal y2, digitVal y3, digitVal y4, twoDigits mo1 mo2,
        twoDigits d1 d2, twoDigits h1 h2, twoDigits mi1 mi2, twoDigits s1 s2,
        parseFracZone rest with
    | some a, some b, some c, some d, some mo, some dy, some hh, some mi, some ss,
        some (ns, off) =>
      let yr := 1000 * a + 100 * b + 10 * c + d
      if 1 ≤ mo && mo ≤ 12 && 1 ≤ dy && dy ≤ daysInMonth yr mo &&
          hh ≤ 23 && mi ≤ 59 && ss ≤ 59 then
        some ⟨yr, mo, dy, hh, mi, ss, ns, off⟩
      else none
    | _, _, _, _, _, _, _, _, _, _ => none
  | _ => none

/-! ### The query builder (`database` package) -/

/-- A value passed as a positional SQL argument. -/
inductive GoValue where
  | vUUID (u : Nat)
  | vStr (s : GoStr)
  | vTime (t : GoTime)
  | vInt (n : Int)
deriving DecidableEq

/-- The column-name constants of the `database` package. -/
def columnID : GoStr := gs "id"

def columnProjectID : GoStr := gs "project_id"

def columnLevel : GoStr := gs "level"

def columnMessage : GoStr := gs "message"

def columnSource : GoStr := gs "source"

def columnTimestamp : GoStr := gs "timestamp"

/-- `QueryBuilder` from the `database` package: accumulated condition strings,
positional argument values, and the next placeholder number. -/
structure QueryBuilder where
  conditions : List GoStr
  args : List GoValue
  argCount : Nat
deriving DecidableEq

/-- `NewQueryBuilder`: no conditions, no arguments, numbering starts at `$1`. -/
def NewQueryBuilder : QueryBuilder := ⟨[], [], 1⟩

/-- `QueryBuilder.AddCondition`: appends `column = $N` and stores the value. -/
def QueryBuilder.AddCondition (qb : QueryBuilder) (column : GoStr) (value : GoValue) :
    QueryBuilder :=
  { conditions := qb.conditions ++ [column ++ gs " = $" ++ decRepr qb.argCount]
    args := qb.args ++ [value]
    argCount := qb.argCount + 1 }

/-- The validation failures of `AddTimeRange` (`invalid start_time` /
`invalid end_time`). -/
inductive RangeErr where
  | invalidStartTime
  | invalidEndTime
deriving DecidableEq

/-- The second half of `AddTimeRange` (the `end` bound), shared between the
empty-start and appended-start paths of the Go function body. -/
def addTimeRangeEnd (qb : QueryBuilder) (column finish : GoStr) :
    QueryBuilder × Option RangeErr :=
  if finish = [] then (qb, none)
  else
    match parseRFC3339 finish with
    | none => (qb, some .invalidEndTime)
    | some t =>
      ({ conditions := qb.conditions ++ [column ++ gs " <= $" ++ decRepr qb.argCount]
         args := qb.args ++ [.vTime t]
         argCount := qb.argCount + 1 }, none)

/-- `QueryBuilder.AddTimeRange`: for each non-empty bound, parse it as RFC3339
and append `column >= $N` / `column <= $N`.  The Go method mutates its
receiver and returns an error; the model returns the (possibly updated)
builder together with the optional error.  Note that a parse failure of the
`end` bound returns after the `start` condition was already appended. -/
def QueryBuilder.AddTimeRange (qb : QueryBuilder) (column start finish : GoStr) :
    QueryBuilder × Option RangeErr :=
  if start = [] then addTimeRangeEnd qb column finish
  else
    match parseRFC3339 start with
    | none => (qb, some .invalidStartTime)
    | some t =>
      addTimeRangeEnd
        { conditions := qb.conditions ++ [column ++ gs " >= $" ++ decRepr qb.argCount]
          args := qb.args ++ [.vTime t]
          argCount := qb.argCount + 1 } column finish

/-- `QueryBuilder.AddFullTextSearch`: appends the fixed text-search predicate
over the `message` column, parameterizing the tsquery expression. -/
def QueryBuilder.AddFullTextSearch (qb : QueryBuilder) (searchQuery : GoStr) : QueryBuilder :=
  { conditions := qb.conditions ++
      [gs "to_tsvector(\x27english\x27, " ++ columnMessage ++
        gs ") @@ to_tsquery(\x27english\x27, $" ++ decRepr qb.argCount ++ gs ")"]
    args := qb.args ++ [.vStr searchQuery]
    argCount := qb.argCount + 1 }

/-- `QueryBuilder.WhereClause`: `"WHERE "` plus the conditions joined with
`" AND "`, or the empty string when no conditions were added. -/
def QueryBuilder.WhereClause (qb : QueryBuilder) : GoStr :=
  if qb.conditions = [] then [] else gs "WHERE " ++ joinWith (gs " AND ") qb.conditions

/-- `QueryBuilder.Args`: the accumulated argument values in placeholder order. -/
def QueryBuilder.Args (qb : QueryBuilder) : List GoValue := qb.args

/-- `QueryBuilder.NextArgNum`: the next unused placeholder number. -/
def QueryBuilder.NextArgNum (qb : QueryBuilder) : Nat := qb.argCount

/-- `validateLimit` from the `database` package. -/
def validateLimit (limit defaultLimit maxLimit : Int) : Int :=
  if limit ≤ 0 then defaultLimit
  else if limit > maxLimit then maxLimit
  else limit

/-- `validateOffset` from the `database` package. -/
def validateOffset (offset : Int) : Int :=
  if offset < 0 then 0 else offset

/-- `defaultLimit` constant of the `database` package. -/
def defaultLimit : Int := 50

/-- `maxLimit` constant of the `database` package. -/
def maxLimit : Int := 1000

/-! ### Placeholder extraction from rendered SQL text

`extractPH` scans a rendered clause and returns the list of `$N` placeholder
numbers in the order they occur; it is the yardstick for claim C2's
placeholder/argument alignment. -/

/-- Scanner state machine: `inNum` is true while consuming the digits that
follow a `$`, with `acc` the number read so far. -/
def scanPH (inNum : Bool) (acc : Nat) : GoStr → List Nat
  | [] => if inNum then [acc] else []
  | c :: rest =>
    if inNum then
      if c.isDigit then scanPH true (10 * acc + (c.toNat - 48)) rest
      else acc :: (if c = '$' then scanPH true 0 rest else scanPH false 0 rest)
    else
      if c = '$' then scanPH true 0 rest else scanPH false 0 rest

/-- The `$N` placeholder numbers of a rendered clause, left to right. -/
def extractPH (s : GoStr) : List Nat := scanPH false 0 s

/-- True when the string does not begin with a decimal digit. -/
def headNotDigit : GoStr → Bool
  | [] => true
  | c :: _ => !c.isDigit

theorem scanPH_false_cons (c : Char) (rest : GoStr) :
    scanPH false 0 (c :: rest)
      = if c = '$' then scanPH true 0 rest else scanPH false 0 rest := rfl

theorem scanPH_true_cons (acc : Nat) (c : Char) (rest : GoStr) :
    scanPH true acc (c :: rest)
      = if c.isDigit then scanPH true (10 * acc + (c.toNat - 48)) rest
        else acc :: (if c = '$' then scanPH true 0 rest else scanPH false 0 rest) := rfl

theorem scanPH_append_noDollar {a : GoStr} (h : '$' ∉ a) (b : GoStr) :
    scanPH false 0 (a ++ b) = scanPH false 0 b := by
  induction a with
  | nil => rfl
  | cons c a' ih =>
    have hc : ¬ c = '$' := fun hc => h (hc ▸ List.mem_cons_self c a')
    have h' : '$' ∉ a' := fun hm => h (List.mem_cons_of_mem c hm)
    simp only [List.cons_append, scanPH_false_cons, if_neg hc]
    exact ih h'

theorem extractPH_noDollar {a : GoStr} (h : '$' ∉ a) : extractPH a = [] := by
  have := scanPH_append_noDollar h []
  simpa [extractPH] using this

theorem scanPH_append (a b : GoStr) (hb : headNotDigit b = true) :
    scanPH false 0 (a ++ b) = scanPH false 0 a ++ scanPH false 0 b
    ∧ ∀ acc, scanPH true acc (a ++ b) = scanPH true acc a ++ scanPH false 0 b := by
  induction a with
  | nil =>
    refine ⟨by simp [scanPH], ?_⟩
    intro acc
    cases b with
    | nil => simp [scanPH]
    | cons c rest =>
      have hc : c.isDigit = false := by simpa [headNotDigit] using hb
      simp [scanPH_true_cons, hc, scanPH]
  | cons c a' ih =>
    constructor
    · simp only [List.cons_append, scanPH_false_cons]
      by_cases hc : c = '$'
      · simp only [if_pos hc]
        exact (ih).2 0
      · simp only [if_neg hc]
        exact (ih).1
    · intro acc
      simp only [List.cons_append, scanPH_true_cons]
      by_cases hd : c.isDigit
      · simp only [hd, if_pos rfl, if_true]
        exact (ih).2 _
      · simp only [hd, Bool.false_eq_true, if_false]
        by_cases hc : c = '$'
        · simp only [if_pos hc, List.cons_append]
          rw [(ih).2 0]
        · simp only [if_neg hc, List.cons_append]
          rw [(ih).1]

theorem scanPH_digits (ds : GoStr) (hds : ∀ c ∈ ds, c.isDigit = true) (t : GoStr) :
    ∀ acc, scanPH true acc (ds ++ t)
      = scanPH true (ds.foldl (fun a c => 10 * a + (c.toNat - 48)) acc) t := by
  induction ds with
  | nil => intro acc; rfl
  | cons c ds' ih =>
    intro acc
    have hc : c.isDigit = true := hds c (List.mem_cons_self c ds')
    have hds' : ∀ x ∈ ds', x.isDigit = true := fun x hx => hds x (List.mem_cons_of_mem c hx)
    simp only [List.cons_append, scanPH_true_cons, hc, if_true, List.foldl_cons]
    exact ih hds' _

theorem scanPH_true_final (t : GoStr) (ht : headNotDigit t = true) (ht2 : '$' ∉ t) (acc : Nat) :
    scanPH true acc t = [acc] := by
  cases t with
  | nil => rfl
  | cons c rest =>
    have hc : c.isDigit = false := by simpa [headNotDigit] using ht
    have hne : ¬ c = '$' := fun h => ht2 (h ▸ List.mem_cons_self c rest)
    have hrest : '$' ∉ rest := fun hm => ht2 (List.mem_cons_of_mem c hm)
    have hre : scanPH false 0 rest = [] := extractPH_noDollar hrest
    simp [scanPH_true_cons, hc, hne, hre]

theorem digitChar_isDigit {d : Nat} (h : d < 10) : (digitChar d).isDigit = true := by
  interval_cases d <;> decide

theorem digitChar_val {d : Nat} (h : d < 10) : (digitChar d).toNat - 48 = d := by
  interval_cases d <;> decide

theorem decDigitsAux_spec :
    ∀ fuel n, n < fuel →
      (∀ c ∈ decDigitsAux fuel n, c.isDigit = true)
      ∧ ∀ acc, (decDigitsAux fuel n).foldl (fun a c => 10 * a + (c.toNat - 48)) acc
          = acc * 10 ^ (decDigitsAux fuel n).length + n := by
  intro fuel
  induction fuel with
  | zero => intro n hn; omega
  | succ fuel ih =>
    intro n hn
    by_cases h10 : n < 10
    · constructor
      · intro c hc
        simp only [decDigitsAux, if_pos h10, List.mem_singleton] at hc
        exact hc ▸ digitChar_isDigit h10
      · intro acc
        simp only [decDigitsAux, if_pos h10, List.foldl_cons, List.foldl_nil,
          List.length_singleton, pow_one, digitChar_val h10]
        ring
    · have hdiv : n / 10 < n := Nat.div_lt_self (by omega) (by omega)
      have hfuel : n / 10 < fuel := by omega
      obtain ⟨ihd, ihv⟩ := ih (n / 10) hfuel
      constructor
      · intro c hc
        simp only [decDigitsAux, if_neg h10, List.mem_append, List.mem_singleton] at hc
        rcases hc with hc | hc
        · exact ihd c hc
        · exact hc ▸ digitChar_isDigit (Nat.mod_lt n (by omega))
      · intro acc
        simp only [decDigitsAux, if_neg h10, List.foldl_append, List.foldl_cons,
          List.foldl_nil, List.length_append, List.length_singleton]
        rw [ihv acc, digitChar_val (Nat.mod_lt n (by omega))]
        have hmod := Nat.div_add_mod n 10
        have hp : (10 : Nat) ^ ((decDigitsAux fuel (n / 10)).length + 1)
            = 10 ^ (decDigitsAux fuel (n / 10)).length * 10 := pow_succ 10 _
        rw [hp]
        ring_nf
        omega

theorem decRepr_digits (n : Nat) : ∀ c ∈ decRepr n, c.isDigit = true :=
  (decDigitsAux_spec (n + 1) n (Nat.lt_succ_self n)).1

theorem natOfDigits_decRepr (n : Nat) : natOfDigits (decRepr n) = n := by
  have := ((decDigitsAux_spec (n + 1) n (Nat.lt_succ_self n)).2) 0
  simpa [natOfDigits, decRepr] using this

theorem extractPH_lead_dollar (a : GoStr) (ha : '$' ∉ a) (n : Nat) (t : GoStr)
    (ht : headNotDigit t = true) (ht2 : '$' ∉ t) :
    extractPH (a ++ '$' :: (decRepr n ++ t)) = [n] := by
  unfold extractPH
  rw [scanPH_append_noDollar ha]
  rw [scanPH_false_cons, if_pos rfl]
  rw [scanPH_digits (decRepr n) (decRepr_digits n) t 0]
  rw [scanPH_true_final t ht ht2]
  have := natOfDigits_decRepr n
  simp only [natOfDigits] at this
  rw [this]

theorem extractPH_joinWith (conds : List GoStr) :
    extractPH (joinWith (gs " AND ") conds) = (conds.map extractPH).flatten := by
  induction conds with
  | nil => rfl
  | cons c tl ih =>
    cases tl with
    | nil => simp [joinWith]
    | cons c2 tl' =>
      have hsep : headNotDigit (gs " AND " ++ joinWith (gs " AND ") (c2 :: tl')) = true := rfl
      have happ := (scanPH_append c (gs " AND " ++ joinWith (gs " AND ") (c2 :: tl')) hsep).1
      have hskip : scanPH false 0 (gs " AND " ++ joinWith (gs " AND ") (c2 :: tl'))
          = scanPH false 0 (joinWith (gs " AND ") (c2 :: tl')) :=
        scanPH_append_noDollar (by decide) _
      rw [joinWith]
      unfold extractPH at ih ⊢
      rw [List.append_assoc, happ, hskip, ih]
      simp [extractPH]

theorem extractPH_whereClause (qb : QueryBuilder) :
    extractPH qb.WhereClause = (qb.conditions.map extractPH).flatten := by
  unfold QueryBuilder.WhereClause
  by_cases h : qb.conditions = []
  · simp [h, extractPH, scanPH]
  · rw [if_neg h]
    unfold extractPH
    rw [scanPH_append_noDollar (by decide)]
    exact extractPH_joinWith qb.conditions

theorem extractPH_sprintf (col : GoStr) (hcol : '$' ∉ col) (mid : GoStr) (hmid : '$' ∉ mid)
    (n : Nat) (t : GoStr) (ht : headNotDigit t = true) (ht2 : '$' ∉ t) :
    extractPH (col ++ (mid ++ ['$']) ++ decRepr n ++ t) = [n] := by
  have hcm : '$' ∉ col ++ mid := by
    intro h
    rcases List.mem_append.mp h with h | h
    · exact hcol h
    · exact hmid h
  have h1 : col ++ (mid ++ ['$']) ++ decRepr n ++ t
      = (col ++ mid) ++ '$' :: (decRepr n ++ t) := by
    simp [List.append_assoc]
  rw [h1]
  exact extractPH_lead_dollar (col ++ mid) hcm n t ht ht2

theorem extractPH_eqCond (col : GoStr) (hcol : '$' ∉ col) (n : Nat) :
    extractPH (col ++ gs " = $" ++ decRepr n) = [n] := by
  have h := extractPH_sprintf col hcol (gs " = ") (by decide) n [] rfl (by simp)
  have e : gs " = " ++ ['$'] = gs " = $" := rfl
  rw [e] at h
  simpa using h

theorem extractPH_geCond (col : GoStr) (hcol : '$' ∉ col) (n : Nat) :
    extractPH (col ++ gs " >= $" ++ decRepr n) = [n] := by
  have h := extractPH_sprintf col hcol (gs " >= ") (by decide) n [] rfl (by simp)
  have e : gs " >= " ++ ['$'] = gs " >= $" := rfl
  rw [e] at h
  simpa using h

theorem extractPH_leCond (col : GoStr) (hcol : '$' ∉ col) (n : Nat) :
    extractPH (col ++ gs " <= $" ++ decRepr n) = [n] := by
  have h := extractPH_sprintf col hcol (gs " <= ") (by decide) n [] rfl (by simp)
  have e : gs " <= " ++ ['$'] = gs " <= $" := rfl
  rw [e] at h
  simpa using h

theorem extractPH_ftsCond (n : Nat) :
    extractPH (gs "to_tsvector(\x27english\x27, " ++ columnMessage ++
      gs ") @@ to_tsquery(\x27english\x27, $" ++ decRepr n ++ gs ")") = [n] := by
  have h := extractPH_sprintf (gs "to_tsvector(\x27english\x27, " ++ columnMessage)
    (by decide) (gs ") @@ to_tsquery(\x27english\x27, ") (by decide) n (gs ")")
    (by decide) (by decide)
  have e : gs ") @@ to_tsquery(\x27english\x27, " ++ ['$']
      = gs ") @@ to_tsquery(\x27english\x27, $" := rfl
  rw [e] at h
  simpa [List.append_assoc] using h

/-! ### The placeholder/argument alignment invariant (claim C2) -/

/-- The alignment invariant: the next placeholder number is one past the
number of stored arguments, and the placeholder numbers occurring in the
conditions, in order, are exactly `1, …, args.length`. -/
def QBInv (qb : QueryBuilder) : Prop :=
  qb.argCount = qb.args.length + 1
  ∧ (qb.conditions.map extractPH).flatten = List.range' 1 qb.args.length

theorem QBInv_new : QBInv NewQueryBuilder := by
  constructor <;> simp [NewQueryBuilder]

theorem QBInv_append (qb : QueryBuilder) (c : GoStr) (v : GoValue)
    (hc : extractPH c = [qb.argCount]) (hinv : QBInv qb) :
    QBInv ⟨qb.conditions ++ [c], qb.args ++ [v], qb.argCount + 1⟩ := by
  obtain ⟨h1, h2⟩ := hinv
  constructor
  · simp [h1]
  · have hr := List.range'_append 1 qb.args.length 1 1
    simp only [List.range'_one, Nat.one_mul] at hr
    simp only [List.map_append, List.map_cons, List.map_nil, List.flatten_append,
      List.flatten_cons, List.flatten_nil, List.append_nil, h2, hc, h1,
      List.length_append, List.length_singleton]
    rw [Nat.add_comm 1 qb.args.length] at hr
    exact hr

theorem QBInv_addCondition (qb : QueryBuilder) (column : GoStr) (value : GoValue)
    (hcol : '$' ∉ column) (hinv : QBInv qb) : QBInv (qb.AddCondition column value) :=
  QBInv_append qb _ value (extractPH_eqCond column hcol qb.argCount) hinv

theorem QBInv_addFullTextSearch (qb : QueryBuilder) (q : GoStr) (hinv : QBInv qb) :
    QBInv (qb.AddFullTextSearch q) :=
  QBInv_append qb _ (.vStr q) (extractPH_ftsCond qb.argCount) hinv

theorem QBInv_addTimeRangeEnd (qb qb2 : QueryBuilder) (column finish : GoStr)
    (hcol : '$' ∉ column) (h : addTimeRangeEnd qb column finish = (qb2, none))
    (hinv : QBInv qb) : QBInv qb2 := by
  unfold addTimeRangeEnd at h
  by_cases hf : finish = []
  · rw [if_pos hf] at h
    injection h with h1 _
    exact h1 ▸ hinv
  · rw [if_neg hf] at h
    cases hp : parseRFC3339 finish with
    | none => rw [hp] at h; exact absurd h (by simp)
    | some t =>
      rw [hp] at h
      injection h with h1 _
      exact h1 ▸ QBInv_append qb _ (.vTime t) (extractPH_leCond column hcol qb.argCount) hinv

theorem QBInv_addTimeRange (qb qb2 : QueryBuilder) (column start finish : GoStr)
    (hcol : '$' ∉ column) (h : qb.AddTimeRange column start finish = (qb2, none))
    (hinv : QBInv qb) : QBInv qb2 := by
  unfold QueryBuilder.AddTimeRange at h
  by_cases hs : start = []
  · rw [if_pos hs] at h
    exact QBInv_addTimeRangeEnd qb qb2 column finish hcol h hinv
  · rw [if_neg hs] at h
    cases hp : parseRFC3339 start with
    | none => rw [hp] at h; exact absurd h (by simp)
    | some t =>
      rw [hp] at h
      exact QBInv_addTimeRangeEnd _ qb2 column finish hcol h
        (QBInv_append qb _ (.vTime t) (extractPH_geCond column hcol qb.argCount) hinv)

/-! ### Builder call sequences (claim C2) -/

/-- One call on a `QueryBuilder`, as the repository's query paths issue them. -/
inductive QBOp where
  | addCondition (column : GoStr) (value : GoValue)
  | addTimeRange (column start finish : GoStr)
  | addFullTextSearch (query : GoStr)
deriving DecidableEq

/-- The column-name constants usable as condition columns. -/
def repoColumns : List GoStr :=
  [columnID, columnProjectID, columnLevel, columnMessage, columnSource, columnTimestamp]

/-- An op is well-formed when its column argument is one of the repository's
column constants — every call site in the repository satisfies this. -/
def QBOp.colsOK : QBOp → Prop
  | .addCondition column _ => column ∈ repoColumns
  | .addTimeRange column _ _ => column ∈ repoColumns
  | .addFullTextSearch _ => True

instance : DecidablePred QBOp.colsOK := fun op =>
  match op with
  | .addCondition column _ => inferInstanceAs (Decidable (column ∈ repoColumns))
  | .addTimeRange column _ _ => inferInstanceAs (Decidable (column ∈ repoColumns))
  | .addFullTextSearch _ => inferInstanceAs (Decidable True)

theorem repoColumns_noDollar {c : GoStr} (hc : c ∈ repoColumns) : '$' ∉ c := by
  fin_cases hc <;> decide

/-- Applies one call; a failing `AddTimeRange` makes the call unsuccessful. -/
def applyOp (qb : QueryBuilder) : QBOp → Option QueryBuilder
  | .addCondition column value => some (qb.AddCondition column value)
  | .addTimeRange column start finish =>
    match qb.AddTimeRange column start finish with
    | (qb2, none) => some qb2
    | (_, some _) => none
  | .addFullTextSearch query => some (qb.AddFullTextSearch query)

/-- Runs a sequence of calls, succeeding only when every call succeeds. -/
def runOps : QueryBuilder → List QBOp → Option QueryBuilder
  | qb, [] => some qb
  | qb, op :: rest =>
    match applyOp qb op with
    | none => none
    | some qb2 => runOps qb2 rest

theorem applyOp_inv (qb qb1 : QueryBuilder) (op : QBOp) (hop : op.colsOK)
    (h : applyOp qb op = some qb1) (hinv : QBInv qb) : QBInv qb1 := by
  cases op with
  | addCondition column value =>
    injection h with h1
    exact h1 ▸ QBInv_addCondition qb column value (repoColumns_noDollar hop) hinv
  | addFullTextSearch query =>
    injection h with h1
    exact h1 ▸ QBInv_addFullTextSearch qb query hinv
  | addTimeRange column start finish =>
    simp only [applyOp] at h
    cases hr : qb.AddTimeRange column start finish with
    | mk qb2 err =>
      cases err with
      | none =>
        rw [hr] at h
        injection h with h1
        exact h1 ▸ QBInv_addTimeRange qb qb2 column start finish
          (repoColumns_noDollar hop) hr hinv
      | some e => rw [hr] at h; exact absurd h (by simp)

theorem runOps_inv : ∀ (ops : List QBOp) (qb0 qb : QueryBuilder),
    (∀ op ∈ ops, op.colsOK) → QBInv qb0 → runOps qb0 ops = some qb → QBInv qb := by
  intro ops
  induction ops with
  | nil =>
    intro qb0 qb _ hinv h
    injection h with h1
    exact h1 ▸ hinv
  | cons op rest ih =>
    intro qb0 qb hcols hinv h
    unfold runOps at h
    cases ha : applyOp qb0 op with
    | none => rw [ha] at h; exact absurd h (by simp)
    | some qb1 =>
      rw [ha] at h
      exact ih qb1 qb (fun o ho => hcols o (List.mem_cons_of_mem op ho))
        (applyOp_inv qb0 qb1 op (hcols op (List.mem_cons_self op rest)) ha hinv) h

/-- C2: after any sequence of successful `AddCondition`, `AddTimeRange` and
`AddFullTextSearch` calls (on the repository's column constants), the length
of `Args()` equals the number of `$N` placeholders in `WhereClause()`, the
placeholders read left to right are exactly `$1 … $n` so the i-th argument
corresponds to `$i`, `NextArgNum()` is `len(Args()) + 1`, and `WhereClause()`
is `"WHERE "` plus the conditions joined by `" AND "` (empty when there are
no conditions). -/
theorem claim_C2 (ops : List QBOp) (qb : QueryBuilder)
    (hcols : ∀ op ∈ ops, op.colsOK)
    (hrun : runOps NewQueryBuilder ops = some qb) :
    qb.Args.length = (extractPH qb.WhereClause).length
    ∧ extractPH qb.WhereClause = List.range' 1 qb.Args.length
    ∧ qb.NextArgNum = qb.Args.length + 1
    ∧ qb.WhereClause
        = (if qb.conditions = [] then [] else gs "WHERE " ++ joinWith (gs " AND ") qb.conditions) := by
  obtain ⟨h1, h2⟩ := runOps_inv ops NewQueryBuilder qb hcols QBInv_new hrun
  have he : extractPH qb.WhereClause = List.range' 1 qb.Args.length := by
    rw [extractPH_whereClause]
    exact h2
  exact ⟨by rw [he, List.length_range'], he, h1, rfl⟩

theorem claim_C2_witness :
    extractPH (QueryBuilder.WhereClause
      ⟨[gs "project_id = $1",
        gs "to_tsvector(\x27english\x27, message) @@ to_tsquery(\x27english\x27, $2)",
        gs "timestamp >= $3"],
       [.vUUID 7, .vStr (gs "db & err"), .vTime ⟨2024, 11, 1, 0, 0, 0, 0, 0⟩], 4⟩)
      = List.range' 1 3
    ∧ QueryBuilder.NextArgNum
      ⟨[gs "project_id = $1",
        gs "to_tsvector(\x27english\x27, message) @@ to_tsquery(\x27english\x27, $2)",
        gs "timestamp >= $3"],
       [.vUUID 7, .vStr (gs "db & err"), .vTime ⟨2024, 11, 1, 0, 0, 0, 0, 0⟩], 4⟩ = 3 + 1 := by
  have h := claim_C2
    [.addCondition columnProjectID (.vUUID 7),
     .addFullTextSearch (gs "db & err"),
     .addTimeRange columnTimestamp (gs "2024-11-01T00:00:00Z") []]
    ⟨[gs "project_id = $1",
      gs "to_tsvector(\x27english\x27, message) @@ to_tsquery(\x27english\x27, $2)",
      gs "timestamp >= $3"],
     [.vUUID 7, .vStr (gs "db & err"), .vTime ⟨2024, 11, 1, 0, 0, 0, 0, 0⟩], 4⟩
    (by decide) (by decide)
  exact ⟨h.2.1, h.2.2.1⟩

/-- C3 counterexample: calling `AddTimeRange` with the well-formed start bound
`2024-11-01T00:00:00Z` and the malformed end bound `not-a-date` returns a
validation error, yet the builder's condition list is not left as it was —
the start condition was appended before the end bound was examined. -/
theorem claim_C3_counterexample :
    (NewQueryBuilder.AddTimeRange columnTimestamp
        (gs "2024-11-01T00:00:00Z") (gs "not-a-date")).2 = some RangeErr.invalidEndTime
    ∧ (NewQueryBuilder.AddTimeRange columnTimestamp
        (gs "2024-11-01T00:00:00Z") (gs "not-a-date")).1.conditions
      ≠ NewQueryBuilder.conditions := by
  constructor
  · decide
  · decide

/-- C3 (amended): `AddTimeRange` with only a non-empty well-formed start bound
appends exactly one condition and argument; with only a well-formed end bound,
exactly one; with both bounds empty, none and no error.  A malformed start
bound, or a malformed end bound with an empty start, returns a validation
error with the builder unchanged; but a malformed end bound following a
non-empty well-formed start returns the error after the start condition and
argument were already appended. -/
theorem claim_C3_amended (qb : QueryBuilder) (col s f : GoStr) :
    (∀ t, s ≠ [] → parseRFC3339 s = some t →
      qb.AddTimeRange col s []
        = ({ conditions := qb.conditions ++ [col ++ gs " >= $" ++ decRepr qb.argCount]
             args := qb.args ++ [.vTime t], argCount := qb.argCount + 1 }, none))
    ∧ (∀ t, f ≠ [] → parseRFC3339 f = some t →
      qb.AddTimeRange col [] f
        = ({ conditions := qb.conditions ++ [col ++ gs " <= $" ++ decRepr qb.argCount]
             args := qb.args ++ [.vTime t], argCount := qb.argCount + 1 }, none))
    ∧ qb.AddTimeRange col [] [] = (qb, none)
    ∧ (s ≠ [] → parseRFC3339 s = none →
      qb.AddTimeRange col s f = (qb, some .invalidStartTime))
    ∧ (f ≠ [] → parseRFC3339 f = none →
      qb.AddTimeRange col [] f = (qb, some .invalidEndTime))
    ∧ (∀ t, s ≠ [] → parseRFC3339 s = some t → f ≠ [] → parseRFC3339 f = none →
      qb.AddTimeRange col s f
        = ({ conditions := qb.conditions ++ [col ++ gs " >= $" ++ decRepr qb.argCount]
             args := qb.args ++ [.vTime t], argCount := qb.argCount + 1 },
           some .invalidEndTime)) := by
  refine ⟨?_, ?_, ?_, ?_, ?_, ?_⟩
  · intro t hs hp
    simp [QueryBuilder.AddTimeRange, addTimeRangeEnd, hs, hp]
  · intro t hf hp
    simp [QueryBuilder.AddTimeRange, addTimeRangeEnd, hf, hp]
  · simp [QueryBuilder.AddTimeRange, addTimeRangeEnd]
  · intro hs hp
    simp [QueryBuilder.AddTimeRange, hs, hp]
  · intro hf hp
    simp [QueryBuilder.AddTimeRange, addTimeRangeEnd, hf, hp]
  · intro t hs hps hf hpf
    simp [QueryBuilder.AddTimeRange, addTimeRangeEnd, hs, hps, hf, hpf]

theorem claim_C3_amended_witness :
    NewQueryBuilder.AddTimeRange columnTimestamp (gs "2024-11-01T00:00:00Z") []
      = (⟨[gs "timestamp >= $1"], [.vTime ⟨2024, 11, 1, 0, 0, 0, 0, 0⟩], 2⟩, none)
    ∧ NewQueryBuilder.AddTimeRange columnTimestamp [] (gs "2024-11-22T23:59:59Z")
      = (⟨[gs "timestamp <= $1"], [.vTime ⟨2024, 11, 22, 23, 59, 59, 0, 0⟩], 2⟩, none)
    ∧ NewQueryBuilder.AddTimeRange columnTimestamp [] [] = (NewQueryBuilder, none)
    ∧ NewQueryBuilder.AddTimeRange columnTimestamp (gs "not-a-date") []
      = (NewQueryBuilder, some .invalidStartTime)
    ∧ NewQueryBuilder.AddTimeRange columnTimestamp [] (gs "not-a-date")
      = (NewQueryBuilder, some .invalidEndTime)
    ∧ NewQueryBuilder.AddTimeRange columnTimestamp (gs "2024-11-01T00:00:00Z") (gs "not-a-date")
      = (⟨[gs "timestamp >= $1"], [.vTime ⟨2024, 11, 1, 0, 0, 0, 0, 0⟩], 2⟩,
         some .invalidEndTime) := by
  refine ⟨?_, ?_, ?_, ?_, ?_, ?_⟩
  · exact (claim_C3_amended NewQueryBuilder columnTimestamp
      (gs "2024-11-01T00:00:00Z") []).1 ⟨2024, 11, 1, 0, 0, 0, 0, 0⟩ (by decide) (by decide)
  · exact (claim_C3_amended NewQueryBuilder columnTimestamp []
      (gs "2024-11-22T23:59:59Z")).2.1 ⟨2024, 11, 22, 23, 59, 59, 0, 0⟩ (by decide) (by decide)
  · exact (claim_C3_amended NewQueryBuilder columnTimestamp [] []).2.2.1
  · exact (claim_C3_amended NewQueryBuilder columnTimestamp
      (gs "not-a-date") []).2.2.2.1 (by decide) (by decide)
  · exact (claim_C3_amended NewQueryBuilder columnTimestamp []
      (gs "not-a-date")).2.2.2.2.1 (by decide) (by decide)
  · exact (claim_C3_amended NewQueryBuilder columnTimestamp
      (gs "2024-11-01T00:00:00Z") (gs "not-a-date")).2.2.2.2.2
      ⟨2024, 11, 1, 0, 0, 0, 0, 0⟩ (by decide) (by decide) (by decide) (by decide)

/-- C5: `validateLimit` returns the default 50 when the requested limit is
zero or negative, 1000 when it exceeds 1000, and the requested limit
otherwise, so the result lies in `[1, 1000]`; `validateOffset` returns 0 for
negative offsets and the offset unchanged otherwise, so the result is `≥ 0`. -/
theorem claim_C5 :
    (∀ limit : Int,
      validateLimit limit defaultLimit maxLimit
          = (if limit ≤ 0 then 50 else if limit > 1000 then 1000 else limit)
      ∧ 1 ≤ validateLimit limit defaultLimit maxLimit
      ∧ validateLimit limit defaultLimit maxLimit ≤ 1000)
    ∧ ∀ off : Int,
      validateOffset off = (if off < 0 then 0 else off) ∧ 0 ≤ validateOffset off := by
  constructor
  · intro l
    unfold validateLimit defaultLimit maxLimit
    refine ⟨rfl, ?_, ?_⟩ <;> split_ifs <;> omega
  · intro o
    unfold validateOffset
    refine ⟨rfl, ?_⟩
    split_ifs <;> omega

/-! ### Log rows and the tenant-isolation semantics (claim C4) -/

/-- `models.LogEntry`.  UUIDs are modelled as naturals.  The `Rank *float64`
field is omitted: it is only populated by the store's ranking function on
search responses and no verified claim concerns it. -/
structure LogEntry where
  id : Nat
  projectID : Nat
  level : GoStr
  message : GoStr
  source : GoStr
  timestamp : GoTime
deriving DecidableEq

/-- `models.QueryParams` (GET /logs query string). -/
structure QueryParams where
  level : GoStr
  source : GoStr
  startTime : GoStr
  endTime : GoStr
  limit : Int
  offset : Int
  search : GoStr
deriving DecidableEq

/-- `models.SearchRequest` (POST /logs/search body). -/
structure SearchRequest where
  query : GoStr
  level : GoStr
  source : GoStr
  startTime : GoStr
  endTime : GoStr
  limit : Int
  offset : Int
deriving DecidableEq

/-- A condition of the shape `col = $N` / `col >= $N` / `col <= $N`. -/
inductive CondAST where
  | eqCol (col : GoStr) (n : Nat)
  | geCol (col : GoStr) (n : Nat)
  | leCol (col : GoStr) (n : Nat)
deriving DecidableEq

/-- Recognizes the three-token conditions the builder emits; the full-text
predicate and anything else yields `none`. -/
def parseCond (c : GoStr) : Option CondAST :=
  match fields c with
  | [col, op, ph] =>
    match ph with
    | '$' :: ds =>
      if ds.all Char.isDigit && !ds.isEmpty then
        if op = gs "=" then some (.eqCol col (natOfDigits ds))
        else if op = gs ">=" then some (.geCol col (natOfDigits ds))
        else if op = gs "<=" then some (.leCol col (natOfDigits ds))
        else none
      else none
    | _ => none
  | _ => none

/-- The row field a column name denotes. -/
def rowField (col : GoStr) (row : LogEntry) : Option GoValue :=
  if col = columnProjectID then some (.vUUID row.projectID)
  else if col = columnID then some (.vUUID row.id)
  else if col = columnLevel then some (.vStr row.level)
  else if col = columnSource then some (.vStr row.source)
  else if col = columnMessage then some (.vStr row.message)
  else if col = columnTimestamp then some (.vTime row.timestamp)
  else none

/-- Models the store's evaluation of one recognized condition against a row.
Equality conditions are evaluated precisely; range conditions, out-of-range
placeholders and unknown columns are treated as satisfied, which
over-approximates the set of matching rows — sound for proving that rows of
another project never match. -/
def evalCond (args : List GoValue) (row : LogEntry) : CondAST → Bool
  | .eqCol col n =>
    match args[n - 1]?, rowField col row with
    | some v, some fv => decide (v = fv)
    | _, _ => true
  | .geCol _ _ => true
  | .leCol _ _ => true

/-- One condition string holds of a row; unrecognized conditions (such as the
full-text predicate, whose semantics belong to the store) are treated as
satisfied — again an over-approximation. -/
def condHolds (args : List GoValue) (row : LogEntry) (c : GoStr) : Bool :=
  match parseCond c with
  | some ast => evalCond args row ast
  | none => true

/-- A row satisfies the built WHERE clause: every condition holds. -/
def whereSat (qb : QueryBuilder) (row : LogEntry) : Bool :=
  qb.conditions.all (condHolds qb.args row)

/-- The scoped base builder of `QueryLogs`/`SearchLogs`: the mandatory
`project_id` equality is the first condition added. -/
def qlBase (projectID : Nat) : QueryBuilder :=
  NewQueryBuilder.AddCondition columnProjectID (.vUUID projectID)

/-- The guarded `if params.Level != ""` call of `QueryLogs`/`SearchLogs`. -/
def addLevelFilter (qb : QueryBuilder) (level : GoStr) : QueryBuilder :=
  if level ≠ [] then qb.AddCondition columnLevel (.vStr level) else qb

/-- The guarded `if params.Source != ""` call of `QueryLogs`/`SearchLogs`. -/
def addSourceFilter (qb : QueryBuilder) (source : GoStr) : QueryBuilder :=
  if source ≠ [] then qb.AddCondition columnSource (.vStr source) else qb

/-- The WHERE-clause construction of `QueryLogs` (the non-search path of
`database/logs.go`): project scope, optional level/source filters, then the
time range, whose failure aborts the query. -/
def buildQueryLogsQB (projectID : Nat) (params : QueryParams) :
    Except RangeErr QueryBuilder :=
  match (addSourceFilter (addLevelFilter (qlBase projectID) params.level)
      params.source).AddTimeRange columnTimestamp params.startTime params.endTime with
  | (qb2, none) => .ok qb2
  | (_, some e) => .error e

/-- A failure of `SearchLogs`: an invalid search query or time bound. -/
inductive QueryErr where
  | searchErr (e : ParseErr)
  | timeErr (e : RangeErr)
deriving DecidableEq

/-- The WHERE-clause construction of `SearchLogs` (`database/search.go`):
parse the query, then project scope, full-text predicate, optional filters
and time range. -/
def buildSearchLogsQB (projectID : Nat) (req : SearchRequest) :
    Except QueryErr QueryBuilder :=
  match SearchQueryParser.Parse req.query with
  | .error e => .error (.searchErr e)
  | .ok tsQuery =>
    match (addSourceFilter (addLevelFilter ((qlBase projectID).AddFullTextSearch tsQuery)
        req.level) req.source).AddTimeRange columnTimestamp req.startTime req.endTime with
    | (qb2, none) => .ok qb2
    | (_, some e) => .error (.timeErr e)

/-- The first condition and first argument of a builder. -/
def StartsWith (qb : QueryBuilder) (c1 : GoStr) (a1 : GoValue) : Prop :=
  (∃ ct, qb.conditions = c1 :: ct) ∧ ∃ ta, qb.args = a1 :: ta

theorem startsWith_append {qb qb2 : QueryBuilder} {c1 : GoStr} {a1 : GoValue}
    (h : StartsWith qb c1 a1)
    (hc : ∃ dc, qb2.conditions = qb.conditions ++ dc)
    (ha : ∃ da, qb2.args = qb.args ++ da) : StartsWith qb2 c1 a1 := by
  obtain ⟨⟨ct, h1⟩, ⟨ta, h2⟩⟩ := h
  obtain ⟨dc, hc⟩ := hc
  obtain ⟨da, ha⟩ := ha
  exact ⟨⟨ct ++ dc, by rw [hc, h1]; rfl⟩, ⟨ta ++ da, by rw [ha, h2]; rfl⟩⟩

theorem addLevelFilter_ext (qb : QueryBuilder) (level : GoStr) :
    (∃ dc, (addLevelFilter qb level).conditions = qb.conditions ++ dc)
    ∧ ∃ da, (addLevelFilter qb level).args = qb.args ++ da := by
  unfold addLevelFilter
  by_cases h : level ≠ []
  · rw [if_pos h]; exact ⟨⟨_, rfl⟩, ⟨_, rfl⟩⟩
  · rw [if_neg h]; exact ⟨⟨[], by simp⟩, ⟨[], by simp⟩⟩

theorem addSourceFilter_ext (qb : QueryBuilder) (source : GoStr) :
    (∃ dc, (addSourceFilter qb source).conditions = qb.conditions ++ dc)
    ∧ ∃ da, (addSourceFilter qb source).args = qb.args ++ da := by
  unfold addSourceFilter
  by_cases h : source ≠ []
  · rw [if_pos h]; exact ⟨⟨_, rfl⟩, ⟨_, rfl⟩⟩
  · rw [if_neg h]; exact ⟨⟨[], by simp⟩, ⟨[], by simp⟩⟩

theorem addTimeRangeEnd_ext (qb : QueryBuilder) (col f : GoStr) :
    (∃ dc, (addTimeRangeEnd qb col f).1.conditions = qb.conditions ++ dc)
    ∧ ∃ da, (addTimeRangeEnd qb col f).1.args = qb.args ++ da := by
  unfold addTimeRangeEnd
  by_cases hf : f = []
  · rw [if_pos hf]; exact ⟨⟨[], by simp⟩, ⟨[], by simp⟩⟩
  · rw [if_neg hf]
    cases parseRFC3339 f with
    | none => exact ⟨⟨[], by simp⟩, ⟨[], by simp⟩⟩
    | some t => exact ⟨⟨_, rfl⟩, ⟨_, rfl⟩⟩

theorem addTimeRange_ext (qb : QueryBuilder) (col s f : GoStr) :
    (∃ dc, (qb.AddTimeRange col s f).1.conditions = qb.conditions ++ dc)
    ∧ ∃ da, (qb.AddTimeRange col s f).1.args = qb.args ++ da := by
  unfold QueryBuilder.AddTimeRange
  by_cases hs : s = []
  · rw [if_pos hs]; exact addTimeRangeEnd_ext qb col f
  · rw [if_neg hs]
    cases parseRFC3339 s with
    | none => exact ⟨⟨[], by simp⟩, ⟨[], by simp⟩⟩
    | some t =>
      obtain ⟨⟨dc, hdc⟩, ⟨da, hda⟩⟩ := addTimeRangeEnd_ext
        { conditions := qb.conditions ++ [col ++ gs " >= $" ++ decRepr qb.argCount]
          args := qb.args ++ [.vTime t], argCount := qb.argCount + 1 } col f
      refine ⟨⟨[col ++ gs " >= $" ++ decRepr qb.argCount] ++ dc, ?_⟩,
        ⟨[GoValue.vTime t] ++ da, ?_⟩⟩
      · rw [hdc]; simp
      · rw [hda]; simp

theorem qlBase_startsWith (pid : Nat) :
    StartsWith (qlBase pid) (gs "project_id = $1") (.vUUID pid) :=
  ⟨⟨[], rfl⟩, ⟨[], rfl⟩⟩

theorem buildQueryLogsQB_startsWith (pid : Nat) (params : QueryParams) (qb : QueryBuilder)
    (h : buildQueryLogsQB pid params = .ok qb) :
    StartsWith qb (gs "project_id = $1") (.vUUID pid) := by
  unfold buildQueryLogsQB at h
  cases hr : (addSourceFilter (addLevelFilter (qlBase pid) params.level)
      params.source).AddTimeRange columnTimestamp params.startTime params.endTime with
  | mk qb2 err =>
    rw [hr] at h
    cases err with
    | some e => exact absurd h (by simp)
    | none =>
      injection h with h1
      subst h1
      have hbase := qlBase_startsWith pid
      have h1 := startsWith_append hbase (addLevelFilter_ext (qlBase pid) params.level).1
        (addLevelFilter_ext (qlBase pid) params.level).2
      have h2 := startsWith_append h1 (addSourceFilter_ext _ params.source).1
        (addSourceFilter_ext _ params.source).2
      have h3 := startsWith_append h2
        (addTimeRange_ext _ columnTimestamp params.startTime params.endTime).1
        (addTimeRange_ext _ columnTimestamp params.startTime params.endTime).2
      rw [hr] at h3
      exact h3

theorem buildSearchLogsQB_startsWith (pid : Nat) (req : SearchRequest) (qb : QueryBuilder)
    (h : buildSearchLogsQB pid req = .ok qb) :
    StartsWith qb (gs "project_id = $1") (.vUUID pid) := by
  unfold buildSearchLogsQB at h
  split at h
  · exact absurd h (by simp)
  · rename_i tsQuery hq
    split at h
    · rename_i qb2 hr
      · injection h with h1
        subst h1
        have hbase := qlBase_startsWith pid
        have h0 := startsWith_append hbase
          ⟨_, (rfl : ((qlBase pid).AddFullTextSearch tsQuery).conditions = _)⟩
          ⟨_, (rfl : ((qlBase pid).AddFullTextSearch tsQuery).args = _)⟩
        have h1 := startsWith_append h0 (addLevelFilter_ext _ req.level).1
          (addLevelFilter_ext _ req.level).2
        have h2 := startsWith_append h1 (addSourceFilter_ext _ req.source).1
          (addSourceFilter_ext _ req.source).2
        have h3 := startsWith_append h2
          (addTimeRange_ext _ columnTimestamp req.startTime req.endTime).1
          (addTimeRange_ext _ columnTimestamp req.startTime req.endTime).2
        rw [hr] at h3
        exact h3
    · exact absurd h (by simp)

theorem condHolds_project (args : List GoValue) (row : LogEntry) (u : Nat)
    (ha : args[0]? = some (.vUUID u)) (hne : row.projectID ≠ u) :
    condHolds args row (gs "project_id = $1") = false := by
  have hcond : condHolds args row (gs "project_id = $1")
      = evalCond args row (.eqCol (gs "project_id") 1) := rfl
  have he : evalCond args row (.eqCol (gs "project_id") 1)
      = (match args[0]?, rowField (gs "project_id") row with
         | some v, some fv => decide (v = fv)
         | _, _ => true) := rfl
  have hr : rowField (gs "project_id") row = some (.vUUID row.projectID) := rfl
  rw [hcond, he, ha, hr]
  show decide (GoValue.vUUID u = GoValue.vUUID row.projectID) = false
  simp only [decide_eq_false_iff_not]
  intro hcontr
  injection hcontr with hu
  exact hne hu.symm

theorem whereSat_false (qb : QueryBuilder) (row : LogEntry) (u : Nat)
    (hsw : StartsWith qb (gs "project_id = $1") (.vUUID u)) (hne : row.projectID ≠ u) :
    whereSat qb row = false := by
  obtain ⟨⟨ct, hc⟩, ⟨ta, ha⟩⟩ := hsw
  unfold whereSat
  rw [hc]
  have h0 : qb.args[0]? = some (.vUUID u) := by rw [ha]; simp
  rw [List.all_cons, condHolds_project qb.args row u h0 hne]
  rfl

/-- C4: the WHERE clauses built by `QueryLogs` (plain path) and `SearchLogs`
always begin with the mandatory `project_id = $1` condition bound to the
caller's project identifier as argument `$1`; consequently, under the
(over-approximating) condition semantics, a row of a different project never
satisfies the built query, and the filtered result over any table is
unaffected by entries stored under other projects. -/
theorem claim_C4 (pid : Nat) (params : QueryParams) (req : SearchRequest)
    (qbL qbS : QueryBuilder)
    (hL : buildQueryLogsQB pid params = .ok qbL)
    (hS : buildSearchLogsQB pid req = .ok qbS) :
    (qbL.conditions.head? = some (gs "project_id = $1")
      ∧ qbL.args.head? = some (.vUUID pid)
      ∧ (∀ row : LogEntry, row.projectID ≠ pid → whereSat qbL row = false)
      ∧ ∀ (table extra : List LogEntry), (∀ r ∈ extra, r.projectID ≠ pid) →
          (table ++ extra).filter (fun r => whereSat qbL r)
            = table.filter (fun r => whereSat qbL r))
    ∧ (qbS.conditions.head? = some (gs "project_id = $1")
      ∧ qbS.args.head? = some (.vUUID pid)
      ∧ (∀ row : LogEntry, row.projectID ≠ pid → whereSat qbS row = false)
      ∧ ∀ (table extra : List LogEntry), (∀ r ∈ extra, r.projectID ≠ pid) →
          (table ++ extra).filter (fun r => whereSat qbS r)
            = table.filter (fun r => whereSat qbS r)) := by
  have hswL := buildQueryLogsQB_startsWith pid params qbL hL
  have hswS := buildSearchLogsQB_startsWith pid req qbS hS
  have main : ∀ qb : QueryBuilder, StartsWith qb (gs "project_id = $1") (.vUUID pid) →
      qb.conditions.head? = some (gs "project_id = $1")
      ∧ qb.args.head? = some (.vUUID pid)
      ∧ (∀ row : LogEntry, row.projectID ≠ pid → whereSat qb row = false)
      ∧ ∀ (table extra : List LogEntry), (∀ r ∈ extra, r.projectID ≠ pid) →
          (table ++ extra).filter (fun r => whereSat qb r)
            = table.filter (fun r => whereSat qb r) := by
    intro qb hsw
    obtain ⟨⟨ct, hc⟩, ⟨ta, ha⟩⟩ := hsw
    refine ⟨by rw [hc]; rfl, by rw [ha]; rfl, fun row hrow => whereSat_false qb row pid ⟨⟨ct, hc⟩, ⟨ta, ha⟩⟩ hrow, ?_⟩
    intro table extra hextra
    rw [List.filter_append]
    have hnil : extra.filter (fun r => whereSat qb r) = [] := by
      rw [List.filter_eq_nil_iff]
      intro r hr
      rw [whereSat_false qb r pid ⟨⟨ct, hc⟩, ⟨ta, ha⟩⟩ (hextra r hr)]
      simp
    rw [hnil, List.append_nil]
  exact ⟨main qbL hswL, main qbS hswS⟩

theorem claim_C4_witness :
    whereSat ⟨[gs "project_id = $1"], [.vUUID 1], 2⟩ ⟨0, 2, [], [], [], zeroGoTime⟩ = false
    ∧ whereSat ⟨[gs "project_id = $1",
        gs "to_tsvector(\x27english\x27, message) @@ to_tsquery(\x27english\x27, $2)"],
        [.vUUID 1, .vStr (gs "hello & world")], 3⟩ ⟨0, 2, [], [], [], zeroGoTime⟩ = false := by
  have h := claim_C4 1 ⟨[], [], [], [], 0, 0, []⟩
    ⟨gs "hello world", [], [], [], [], 0, 0⟩
    ⟨[gs "project_id = $1"], [.vUUID 1], 2⟩
    ⟨[gs "project_id = $1",
      gs "to_tsvector(\x27english\x27, message) @@ to_tsquery(\x27english\x27, $2)"],
      [.vUUID 1, .vStr (gs "hello & world")], 3⟩
    rfl rfl
  exact ⟨h.1.2.2.1 ⟨0, 2, [], [], [], zeroGoTime⟩ (by decide),
    h.2.2.2.1 ⟨0, 2, [], [], [], zeroGoTime⟩ (by decide)⟩

/-! ### Batch ingestion (`database/logs.go` and `handlers/logs.go`) -/

/-- `BatchInsertError`: which queued insert failed and the batch size.  The
wrapped driver error (`Err`) is external to this repository and not
modelled. -/
structure BatchInsertError where
  failedIndex : Nat
  totalLogs : Nat
deriving DecidableEq

/-- The `results.Exec()` loop of `InsertLogsBatch`: executes the queued
inserts in order; on the first failure the call fails with the failing index.
`insertOk` models whether the store accepts a row; `orig` is the store before
the batch, returned on failure because pgx sends the whole batch in one
implicit transaction ("All logs are inserted atomically"). -/
def insertLoop (insertOk : LogEntry → Bool) (orig acc : List LogEntry) (i total : Nat) :
    List LogEntry → Option BatchInsertError × List LogEntry
  | [] => (none, acc)
  | e :: rest =>
    if insertOk e then insertLoop insertOk orig (acc ++ [e]) (i + 1) total rest
    else (some ⟨i, total⟩, orig)

/-- `InsertLogsBatch`: an empty slice is a no-op returning nil (success);
otherwise the batch is executed, returning the optional failure and the
resulting store contents. -/
def insertLogsBatch (insertOk : LogEntry → Bool) (store logs : List LogEntry) :
    Option BatchInsertError × List LogEntry :=
  if logs = [] then (none, store)
  else insertLoop insertOk store store 0 logs.length logs

/-- `minBatchSize` constant of the `handlers` package. -/
def minBatchSize : Nat := 1

/-- `maxBatchSize` constant of the `handlers` package. -/
def maxBatchSize : Nat := 1000

/-- The assignment loop of `IngestLogs`: entry `i` receives the `i`-th
generated UUID (`gen i` models the successive `uuid.New()` results), the
caller's project identifier, and the server time exactly when its timestamp
is the zero time; level, message and source are untouched. -/
def assignFrom (pid : Nat) (now : GoTime) (gen : Nat → Nat) :
    Nat → List LogEntry → List LogEntry
  | _, [] => []
  | i, e :: rest =>
    { e with
      id := gen i
      projectID := pid
      timestamp := if e.timestamp = zeroGoTime then now else e.timestamp }
      :: assignFrom pid now gen (i + 1) rest

/-- The whole assignment loop, starting at index 0. -/
def assignLogs (pid : Nat) (now : GoTime) (gen : Nat → Nat) (logs : List LogEntry) :
    List LogEntry :=
  assignFrom pid now gen 0 logs

/-- Observable outcome of the ingest handler: HTTP status, resulting store
contents, and the reported accepted count. -/
structure IngestResult where
  status : Nat
  store : List LogEntry
  count : Option Nat
deriving DecidableEq

/-- `handlers.IngestLogs`: 401 without an authenticated project, 400 on a
body that fails binding (`body = none`) or a batch size outside
`[minBatchSize, maxBatchSize]`, otherwise assign identifiers/timestamps and
insert the batch; a store failure yields 500, success yields 201 with the
accepted count. -/
def ingestLogs (insertOk : LogEntry → Bool) (auth : Option Nat)
    (body : Option (List LogEntry)) (now : GoTime) (gen : Nat → Nat)
    (store : List LogEntry) : IngestResult :=
  match auth with
  | none => ⟨401, store, none⟩
  | some pid =>
    match body with
    | none => ⟨400, store, none⟩
    | some logs =>
      if logs.length < minBatchSize ∨ logs.length > maxBatchSize then ⟨400, store, none⟩
      else
        match insertLogsBatch insertOk store (assignLogs pid now gen logs) with
        | (some _, st) => ⟨500, st, none⟩
        | (none, st) => ⟨201, st, some logs.length⟩

theorem insertLoop_allOk (insertOk : LogEntry → Bool) (orig : List LogEntry) (total : Nat) :
    ∀ (ls : List LogEntry) (acc : List LogEntry) (i : Nat),
      (∀ e ∈ ls, insertOk e = true) →
      insertLoop insertOk orig acc i total ls = (none, acc ++ ls) := by
  intro ls
  induction ls with
  | nil => intro acc i _; simp [insertLoop]
  | cons e rest ih =>
    intro acc i hok
    have he : insertOk e = true := hok e (List.mem_cons_self e rest)
    rw [insertLoop, if_pos he, ih (acc ++ [e]) (i + 1)
      (fun x hx => hok x (List.mem_cons_of_mem e hx))]
    simp

theorem insertLogsBatch_allOk (insertOk : LogEntry → Bool) (store logs : List LogEntry)
    (hok : ∀ e ∈ logs, insertOk e = true) :
    insertLogsBatch insertOk store logs = (none, store ++ logs) := by
  unfold insertLogsBatch
  by_cases h : logs = []
  · rw [if_pos h, h]; simp
  · rw [if_neg h, insertLoop_allOk insertOk store logs.length logs store 0 hok]

theorem assignFrom_getElem (pid : Nat) (now : GoTime) (gen : Nat → Nat) :
    ∀ (logs : List LogEntry) (j i : Nat),
      (assignFrom pid now gen j logs)[i]?
        = (logs[i]?).map (fun e =>
            { e with
              id := gen (j + i)
              projectID := pid
              timestamp := if e.timestamp = zeroGoTime then now else e.timestamp }) := by
  intro logs
  induction logs with
  | nil => intro j i; simp [assignFrom]
  | cons e rest ih =>
    intro j i
    cases i with
    | zero => simp [assignFrom]
    | succ i' =>
      rw [assignFrom]
      simp only [List.getElem?_cons_succ]
      rw [ih (j + 1) i']
      have : j + 1 + i' = j + (i' + 1) := by omega
      rw [this]

theorem assignFrom_map_id (pid : Nat) (now : GoTime) (gen : Nat → Nat) :
    ∀ (logs : List LogEntry) (j : Nat),
      (assignFrom pid now gen j logs).map (fun e => e.id)
        = (List.range' j logs.length).map gen := by
  intro logs
  induction logs with
  | nil => intro j; simp [assignFrom]
  | cons e rest ih =>
    intro j
    rw [assignFrom, List.length_cons, List.range'_succ]
    simp only [List.map_cons]
    rw [ih (j + 1)]

theorem assignLogs_nodup (pid : Nat) (now : GoTime) (gen : Nat → Nat) (logs : List LogEntry)
    (hinj : ∀ i j, i < logs.length → j < logs.length → gen i = gen j → i = j) :
    ((assignLogs pid now gen logs).map (fun e => e.id)).Nodup := by
  rw [assignLogs, assignFrom_map_id, ← List.range_eq_range']
  refine List.Nodup.map_on ?_ (List.nodup_range _)
  intro x hx y hy hxy
  exact hinj x y (List.mem_range.mp hx) (List.mem_range.mp hy) hxy

/-- C6 counterexample: submitting an empty batch to the ingest handler is
rejected with HTTP 400 (batch size below the minimum of 1), not reported as
success — the store is unchanged, but no success is returned to the caller. -/
theorem claim_C6_counterexample :
    (ingestLogs (fun _ => true) (some 1) (some []) zeroGoTime (fun _ => 0)
        [⟨5, 1, gs "info", gs "m", [], zeroGoTime⟩]).status = 400
    ∧ (ingestLogs (fun _ => true) (some 1) (some []) zeroGoTime (fun _ => 0)
        [⟨5, 1, gs "info", gs "m", [], zeroGoTime⟩]).store
      = [⟨5, 1, gs "info", gs "m", [], zeroGoTime⟩]
    ∧ (400 : Nat) ≠ 201 :=
  ⟨rfl, rfl, by decide⟩

/-- C6 (amended): at the store level, `InsertLogsBatch` treats an empty batch
as a no-op and reports success with the store unchanged; the HTTP ingest
handler, however, rejects an empty batch with a 400 validation error before
invoking the store, leaving the store unchanged. -/
theorem claim_C6_amended :
    (∀ (insertOk : LogEntry → Bool) (store : List LogEntry),
      insertLogsBatch insertOk store [] = (none, store))
    ∧ ∀ (insertOk : LogEntry → Bool) (pid : Nat) (now : GoTime) (gen : Nat → Nat)
        (store : List LogEntry),
      ingestLogs insertOk (some pid) (some []) now gen store = ⟨400, store, none⟩ :=
  ⟨fun _ _ => rfl, fun _ _ _ _ _ => rfl⟩

/-- C7: given an authenticated caller and a body that binds to a batch, the
ingest handler responds 400 exactly when the batch size is outside
`[1, 1000]`, and the store is unchanged whenever the batch is rejected. -/
theorem claim_C7 (insertOk : LogEntry → Bool) (pid : Nat) (logs : List LogEntry)
    (now : GoTime) (gen : Nat → Nat) (store : List LogEntry) :
    ((ingestLogs insertOk (some pid) (some logs) now gen store).status = 400
      ↔ (logs.length < minBatchSize ∨ logs.length > maxBatchSize))
    ∧ ((logs.length < minBatchSize ∨ logs.length > maxBatchSize) →
      (ingestLogs insertOk (some pid) (some logs) now gen store).store = store) := by
  by_cases h : logs.length < minBatchSize ∨ logs.length > maxBatchSize
  · simp only [ingestLogs, if_pos h]
    exact ⟨by simp [h], by simp⟩
  · simp only [ingestLogs, if_neg h]
    cases hres : insertLogsBatch insertOk store (assignLogs pid now gen logs) with
    | mk err st =>
      cases err with
      | none => exact ⟨by simp [h], fun hc => absurd hc h⟩
      | some e => exact ⟨by simp [h], fun hc => absurd hc h⟩

theorem claim_C7_witness :
    (ingestLogs (fun _ => true) (some 1) (some []) zeroGoTime (fun _ => 0)
        ([] : List LogEntry)).status = 400
    ∧ (ingestLogs (fun _ => true) (some 1) (some []) zeroGoTime (fun _ => 0)
        ([] : List LogEntry)).store = [] :=
  ⟨(claim_C7 (fun _ => true) 1 [] zeroGoTime (fun _ => 0) []).1.mpr (by decide),
    (claim_C7 (fun _ => true) 1 [] zeroGoTime (fun _ => 0) []).2 (by decide)⟩

/-- C8: for every accepted batch (size in `[1, 1000]`, store accepting every
row), the handler persists exactly the assigned entries and reports 201 with
the batch count; entry `i` receives the `i`-th generated identifier, the
caller's project identifier, and the server time exactly when its own
timestamp was the zero time, with level, message, source and any non-zero
timestamp unchanged; and when the generator is injective on the batch the
assigned identifiers are pairwise distinct. -/
theorem claim_C8 (insertOk : LogEntry → Bool) (pid : Nat) (now : GoTime) (gen : Nat → Nat)
    (logs store : List LogEntry)
    (hmin : minBatchSize ≤ logs.length) (hmax : logs.length ≤ maxBatchSize)
    (hok : ∀ e, insertOk e = true) :
    ingestLogs insertOk (some pid) (some logs) now gen store
        = ⟨201, store ++ assignLogs pid now gen logs, some logs.length⟩
    ∧ (∀ i : Nat, (assignLogs pid now gen logs)[i]?
        = (logs[i]?).map (fun e =>
            { e with
              id := gen i
              projectID := pid
              timestamp := if e.timestamp = zeroGoTime then now else e.timestamp }))
    ∧ ((∀ i j, i < logs.length → j < logs.length → gen i = gen j → i = j) →
      ((assignLogs pid now gen logs).map (fun e => e.id)).Nodup) := by
  have hsize : ¬ (logs.length < minBatchSize ∨ logs.length > maxBatchSize) := by
    simp only [minBatchSize, maxBatchSize] at hmin hmax ⊢
    omega
  refine ⟨?_, ?_, fun hinj => assignLogs_nodup pid now gen logs hinj⟩
  · simp only [ingestLogs, if_neg hsize]
    rw [insertLogsBatch_allOk insertOk store _ (fun e _ => hok e)]
  · intro i
    have h := assignFrom_getElem pid now gen logs 0 i
    rw [Nat.zero_add] at h
    exact h

theorem claim_C8_witness :
    ingestLogs (fun _ => true) (some 3)
        (some [⟨0, 0, gs "error", gs "boom", [], zeroGoTime⟩])
        ⟨2024, 1, 2, 3, 4, 5, 0, 0⟩ (fun i => i + 10) []
      = ⟨201, [⟨10, 3, gs "error", gs "boom", [], ⟨2024, 1, 2, 3, 4, 5, 0, 0⟩⟩], some 1⟩
    ∧ (([10] : List Nat)).Nodup := by
  have h := claim_C8 (fun _ => true) 3 ⟨2024, 1, 2, 3, 4, 5, 0, 0⟩ (fun i => i + 10)
    [⟨0, 0, gs "error", gs "boom", [], zeroGoTime⟩] [] (by decide) (by decide) (fun e => rfl)
  exact ⟨h.1, h.2.2 (fun i j _ _ hij => by simp only [] at hij; omega)⟩

/-! ### The executed database calls of QueryLogs / SearchLogs (claim C9) -/

/-- A parameterized SQL statement handed to `db.Pool.Query`: the query text
and its positional arguments. -/
structure DBCall where
  text : GoStr
  args : List GoValue
deriving DecidableEq

/-- The `fmt.Sprintf` query text of the plain path of `QueryLogs`. -/
def plainLogsSQL (qb : QueryBuilder) : GoStr :=
  gs "\n\t\tSELECT \n\t\t\t" ++ columnID ++ gs ", " ++ columnProjectID ++ gs ", " ++
  columnLevel ++ gs ", " ++ columnMessage ++ gs ", " ++ columnSource ++ gs ", " ++
  columnTimestamp ++ gs ",\n\t\t\tCOUNT(*) OVER() as total_count\n\t\tFROM logs\n\t\t" ++
  qb.WhereClause ++ gs "\n\t\tORDER BY " ++ columnTimestamp ++ gs " DESC\n\t\tLIMIT $" ++
  decRepr qb.NextArgNum ++ gs " OFFSET $" ++ decRepr (qb.NextArgNum + 1) ++ gs "\n\t"

/-- The `fmt.Sprintf` query text of `SearchLogs` (with the `ts_rank` column
and relevance-first ordering). -/
def searchLogsSQL (qb : QueryBuilder) : GoStr :=
  gs "\n\t\tSELECT \n\t\t\t" ++ columnID ++ gs ", " ++ columnProjectID ++ gs ", " ++
  columnLevel ++ gs ", " ++ columnMessage ++ gs ", " ++ columnSource ++ gs ", " ++
  columnTimestamp ++ gs ",\n\t\t\tts_rank(to_tsvector(\x27english\x27, " ++ columnMessage ++
  gs "), to_tsquery(\x27english\x27, $2)) as rank,\n\t\t\tCOUNT(*) OVER() as total_count\n\t\tFROM logs\n\t\t" ++
  qb.WhereClause ++ gs "\n\t\tORDER BY rank DESC, " ++ columnTimestamp ++
  gs " DESC\n\t\tLIMIT $" ++ decRepr qb.NextArgNum ++ gs " OFFSET $" ++
  decRepr (qb.NextArgNum + 1) ++ gs "\n\t"

/-- The pure query-construction part of `DB.SearchLogs`: parse and build,
then produce the executed SQL text with the builder's arguments followed by
the validated limit and offset. -/
def searchLogsCall (projectID : Nat) (req : SearchRequest) : Except QueryErr DBCall :=
  match buildSearchLogsQB projectID req with
  | .error e => .error e
  | .ok qb =>
    .ok ⟨searchLogsSQL qb,
      qb.Args ++ [.vInt (validateLimit req.limit defaultLimit maxLimit),
        .vInt (validateOffset req.offset)]⟩

/-- The pure query-construction part of `DB.QueryLogs`: a non-empty search
parameter delegates to the search path with the same fields; otherwise the
plain filter query is built. -/
def queryLogsCall (projectID : Nat) (params : QueryParams) : Except QueryErr DBCall :=
  if params.search ≠ [] then
    searchLogsCall projectID
      ⟨params.search, params.level, params.source, params.startTime, params.endTime,
        params.limit, params.offset⟩
  else
    match buildQueryLogsQB projectID params with
    | .error e => .error (.timeErr e)
    | .ok qb =>
      .ok ⟨plainLogsSQL qb,
        qb.Args ++ [.vInt (validateLimit params.limit defaultLimit maxLimit),
          .vInt (validateOffset params.offset)]⟩

/-- Executes a built call against the store; `exec` models the external
database (`none` = query failure). -/
def runDBCall (exec : DBCall → Option (List LogEntry × Int))
    (c : Except QueryErr DBCall) : Except Unit (List LogEntry × Int) :=
  match c with
  | .error _ => .error ()
  | .ok call =>
    match exec call with
    | none => .error ()
    | some r => .ok r

/-- `DB.QueryLogs` end to end: build the call, run it. -/
def queryLogs (exec : DBCall → Option (List LogEntry × Int)) (projectID : Nat)
    (params : QueryParams) : Except Unit (List LogEntry × Int) :=
  runDBCall exec (queryLogsCall projectID params)

/-- `DB.SearchLogs` end to end: build the call, run it. -/
def searchLogs (exec : DBCall → Option (List LogEntry × Int)) (projectID : Nat)
    (req : SearchRequest) : Except Unit (List LogEntry × Int) :=
  runDBCall exec (searchLogsCall projectID req)

/-- C9: when the free-text search field is non-empty, `QueryLogs` builds
exactly the database call `SearchLogs` builds for the request carrying the
same query, level, source, time bounds, limit and offset — so no
plain-filter query of its own is executed — and returns exactly
`SearchLogs`' result for every database behavior. -/
theorem claim_C9 (pid : Nat) (params : QueryParams) (hs : params.search ≠ []) :
    queryLogsCall pid params = searchLogsCall pid
      ⟨params.search, params.level, params.source, params.startTime, params.endTime,
        params.limit, params.offset⟩
    ∧ ∀ exec : DBCall → Option (List LogEntry × Int),
      queryLogs exec pid params = searchLogs exec pid
        ⟨params.search, params.level, params.source, params.startTime, params.endTime,
          params.limit, params.offset⟩ := by
  have h : queryLogsCall pid params = searchLogsCall pid
      ⟨params.search, params.level, params.source, params.startTime, params.endTime,
        params.limit, params.offset⟩ := by
    unfold queryLogsCall
    rw [if_pos hs]
  exact ⟨h, fun exec => by unfold queryLogs searchLogs; rw [h]⟩

theorem claim_C9_witness :
    queryLogsCall 2 ⟨[], [], [], [], 0, 0, gs "hello world"⟩
      = searchLogsCall 2 ⟨gs "hello world", [], [], [], [], 0, 0⟩ :=
  (claim_C9 2 ⟨[], [], [], [], 0, 0, gs "hello world"⟩ (by decide)).1

/-! ### The list/search handlers and pagination metadata (claim C10) -/

/-- `models.LogsResponse` as emitted by `GetLogs`/`SearchLogs`.  The
`query_time_ms` field (a wall-clock duration) is not modelled. -/
structure LogsResponse where
  logs : List LogEntry
  total : Int
  limit : Int
  offset : Int
  hasMore : Bool
deriving DecidableEq

/-- Two's-complement wrap-around of 64-bit Go `int` arithmetic. -/
def wrap64 (x : Int) : Int := (x + 2 ^ 63) % 2 ^ 64 - 2 ^ 63

/-- `defaultLimit` constant of the `handlers` package. -/
def handlersDefaultLimit : Int := 50

/-- `maxLimit` constant of the `handlers` package. -/
def handlersMaxLimit : Int := 1000

/-- `defaultOffset` constant of the `handlers` package. -/
def handlersDefaultOffset : Int := 0

/-- `GetLogs` defaulting: a limit `≤ 0` becomes the default. -/
def defaultLimitGet (l : Int) : Int := if l ≤ 0 then handlersDefaultLimit else l

/-- `SearchLogs` defaulting: only a limit equal to zero becomes the default. -/
def defaultLimitSearch (l : Int) : Int := if l = 0 then handlersDefaultLimit else l

/-- Both handlers cap the limit at the maximum. -/
def capLimit (l : Int) : Int := if l > handlersMaxLimit then handlersMaxLimit else l

/-- Both handlers replace a negative offset with the default offset. -/
def defaultOffsetOf (o : Int) : Int := if o < 0 then handlersDefaultOffset else o

/-- The query parameters after `GetLogs`' handler-level defaulting. -/
def defaultedParams (p : QueryParams) : QueryParams :=
  { p with limit := capLimit (defaultLimitGet p.limit), offset := defaultOffsetOf p.offset }

/-- The search request after `SearchLogs`' handler-level defaulting. -/
def defaultedReq (r : SearchRequest) : SearchRequest :=
  { r with limit := capLimit (defaultLimitSearch r.limit), offset := defaultOffsetOf r.offset }

/-- `handlers.GetLogs`: 401 without auth, 400 on a binding failure, 500 on a
query or store failure, otherwise 200 with the rows, total, the defaulted
limit/offset, and `has_more` computed as `int64(offset+limit) < total` in Go
`int` arithmetic. -/
def getLogsHandler (exec : DBCall → Option (List LogEntry × Int)) (auth : Option Nat)
    (paramsOpt : Option QueryParams) : Nat × Option LogsResponse :=
  match auth with
  | none => (401, none)
  | some pid =>
    match paramsOpt with
    | none => (400, none)
    | some p =>
      match queryLogsCall pid (defaultedParams p) with
      | .error _ => (500, none)
      | .ok call =>
        match exec call with
        | none => (500, none)
        | some (logs, total) =>
          (200, some ⟨logs, total, (defaultedParams p).limit, (defaultedParams p).offset,
            decide (wrap64 ((defaultedParams p).offset + (defaultedParams p).limit) < total)⟩)

/-- `handlers.SearchLogs`: same shape over the search path; the body is the
parsed JSON request (`none` = binding failure, including a query shorter than
the bound 3 enforced by the binding tag). -/
def searchLogsHandler (exec : DBCall → Option (List LogEntry × Int)) (auth : Option Nat)
    (bodyOpt : Option SearchRequest) : Nat × Option LogsResponse :=
  match auth with
  | none => (401, none)
  | some pid =>
    match bodyOpt with
    | none => (400, none)
    | some r =>
      match searchLogsCall pid (defaultedReq r) with
      | .error _ => (500, none)
      | .ok call =>
        match exec call with
        | none => (500, none)
        | some (logs, total) =>
          (200, some ⟨logs, total, (defaultedReq r).limit, (defaultedReq r).offset,
            decide (wrap64 ((defaultedReq r).offset + (defaultedReq r).limit) < total)⟩)

theorem wrap64_eq_self {x : Int} (h1 : -(2 ^ 63) ≤ x) (h2 : x < 2 ^ 63) : wrap64 x = x := by
  unfold wrap64
  have hpow : (2 : Int) ^ 64 = 2 ^ 63 * 2 := by norm_num
  have h0 : (0 : Int) ≤ x + 2 ^ 63 := by omega
  have hlt : x + 2 ^ 63 < 2 ^ 64 := by omega
  rw [Int.emod_eq_of_lt h0 hlt]
  omega

theorem getLogsHandler_shape (exec : DBCall → Option (List LogEntry × Int))
    (auth : Option Nat) (paramsOpt : Option QueryParams) (st : Nat) (r : LogsResponse)
    (h : getLogsHandler exec auth paramsOpt = (st, some r)) :
    r.hasMore = decide (wrap64 (r.offset + r.limit) < r.total) := by
  unfold getLogsHandler at h
  split at h
  · exact absurd h (by simp)
  · split at h
    · exact absurd h (by simp)
    · split at h
      · exact absurd h (by simp)
      · split at h
        · exact absurd h (by simp)
        · injection h with h1 h2
          injection h2 with h3
          subst h3
          rfl

theorem searchLogsHandler_shape (exec : DBCall → Option (List LogEntry × Int))
    (auth : Option Nat) (bodyOpt : Option SearchRequest) (st : Nat) (r : LogsResponse)
    (h : searchLogsHandler exec auth bodyOpt = (st, some r)) :
    r.hasMore = decide (wrap64 (r.offset + r.limit) < r.total) := by
  unfold searchLogsHandler at h
  split at h
  · exact absurd h (by simp)
  · split at h
    · exact absurd h (by simp)
    · split at h
      · exact absurd h (by simp)
      · split at h
        · exact absurd h (by simp)
        · injection h with h1 h2
          injection h2 with h3
          subst h3
          rfl

/-- C10 counterexample: with the in-range request offset `2^63 - 1` (and the
default limit 50) against an empty result set, the List handler reports
`has_more = true` because the Go `int` addition `offset + limit` wraps
around, even though mathematically `offset + limit < total` is false. -/
theorem claim_C10_counterexample :
    getLogsHandler (fun _ => some ([], 0)) (some 1)
        (some ⟨[], [], [], [], 0, 2 ^ 63 - 1, []⟩)
      = (200, some ⟨[], 0, 50, 2 ^ 63 - 1, true⟩)
    ∧ ¬ ((2 ^ 63 - 1 : Int) + 50 < (0 : Int)) := by
  constructor
  · rfl
  · decide

/-- C10 (amended): in every successful List/Search response, `has_more`
equals `wrap64(offset + limit) < total`, where `wrap64` is two's-complement
64-bit wrap-around (Go `int` addition) and limit/offset are the request
values after handler-level defaulting as carried in the response; whenever
`offset + limit` does not overflow int64, this is exactly
`offset + limit < total`, computable from the response's own fields. -/
theorem claim_C10_amended (exec : DBCall → Option (List LogEntry × Int))
    (auth : Option Nat) (paramsOpt : Option QueryParams) (bodyOpt : Option SearchRequest)
    (st1 st2 : Nat) (r1 r2 : LogsResponse) :
    (getLogsHandler exec auth paramsOpt = (st1, some r1) →
      r1.hasMore = decide (wrap64 (r1.offset + r1.limit) < r1.total)
      ∧ (-(2 ^ 63) ≤ r1.offset + r1.limit → r1.offset + r1.limit < 2 ^ 63 →
        (r1.hasMore = true ↔ r1.offset + r1.limit < r1.total)))
    ∧ (searchLogsHandler exec auth bodyOpt = (st2, some r2) →
      r2.hasMore = decide (wrap64 (r2.offset + r2.limit) < r2.total)
      ∧ (-(2 ^ 63) ≤ r2.offset + r2.limit → r2.offset + r2.limit < 2 ^ 63 →
        (r2.hasMore = true ↔ r2.offset + r2.limit < r2.total))) := by
  constructor
  · intro h
    have hshape := getLogsHandler_shape exec auth paramsOpt st1 r1 h
    refine ⟨hshape, fun hlo hhi => ?_⟩
    rw [hshape, wrap64_eq_self hlo hhi, decide_eq_true_iff]
  · intro h
    have hshape := searchLogsHandler_shape exec auth bodyOpt st2 r2 h
    refine ⟨hshape, fun hlo hhi => ?_⟩
    rw [hshape, wrap64_eq_self hlo hhi, decide_eq_true_iff]

theorem claim_C10_amended_witness :
    ((⟨[], 25, 10, 0, true⟩ : LogsResponse).hasMore
        = decide (wrap64 ((0 : Int) + 10) < 25))
    ∧ ((⟨[], 25, 10, 0, true⟩ : LogsResponse).hasMore = true ↔ (0 : Int) + 10 < 25) := by
  have h := (claim_C10_amended (fun _ => some ([], 25)) (some 1)
    (some ⟨[], [], [], [], 10, 0, []⟩) (some ⟨gs "hello world", [], [], [], [], 10, 0⟩)
    200 200 ⟨[], 25, 10, 0, true⟩ ⟨[], 25, 10, 0, true⟩).1 rfl
  exact ⟨h.1, h.2 (by decide) (by decide)⟩
